import Mathlib

/-!
Shallow embedding of the AweAgent repository: the paper pipeline
(`src/aweagent/agent.py`, `src/aweagent/tool.py`,
`Aweagent/src/aweagent/workflow.py`, `Aweagent/src/aweagent/db.py`)
and the JSON → README synchronisation scripts
(`others/Update_from_json/Script/utils.py`, `update_readme.py`,
`add_record_interactive.py`).

Python functions are translated into executable Lean definitions: mutable
database sessions become explicit list-of-rows state, Python exceptions
become `Except`, `None`-able values become `Option`.  Each claim about the
repository is then settled by a theorem over these definitions.
-/

namespace AweAgent

/-! ## Python primitives shared by several modules -/

/-- Truthiness of a Python string (`if s:`): empty string is falsy. -/
def pyStrTruthy (s : String) : Bool := !s.toList.isEmpty

/-- `os.path.join a b` for POSIX paths, for the relative file names used in
this repository (`b` absolute overrides, empty `a` drops, otherwise a `/` is
inserted unless `a` already ends with one). -/
def pyPathJoin (a b : String) : String :=
  if b.toList.head? = some '/' then b
  else if a.toList.isEmpty then b
  else if a.toList.getLast? = some '/' then a ++ b
  else a ++ "/" ++ b

/-- `os.path.dirname p` for POSIX paths: the part before the last `/`,
with trailing slashes stripped unless the result is all slashes. -/
def pyDirname (p : String) : String :=
  let cs := p.toList
  let tail := (cs.reverse.takeWhile (fun c => c ≠ '/')).reverse
  if tail.length = cs.length then ""
  else
    let head := cs.take (cs.length - tail.length)
    let stripped := (head.reverse.dropWhile (fun c => c = '/')).reverse
    if stripped.isEmpty then String.mk head else String.mk stripped

/-! ## `Aweagent/src/aweagent/db.py` : `get_database_session`

`get_database_session(db_path)` opens `SemanticScholar_papers.db` inside the
directory `db_path` when `db_path` is truthy, and otherwise falls back to the
`DATABASE_URL` environment variable or the default flat file.  We model only
the URL of the SQLite file the returned session is bound to. -/

/-- URL of the database file opened by `get_database_session` in `db.py`:
`sqlite:///` ++ `os.path.join(db_path, 'SemanticScholar_papers.db')` when
`db_path` is truthy, else `DATABASE_URL` or the default. -/
def get_database_session_url (db_path : Option String) (envDatabaseUrl : Option String) : String :=
  match db_path with
  | some p =>
      if pyStrTruthy p then "sqlite:///" ++ pyPathJoin p "SemanticScholar_papers.db"
      else envDatabaseUrl.getD "sqlite:///SemanticScholar_papers.db"
  | none => envDatabaseUrl.getD "sqlite:///SemanticScholar_papers.db"

/-! ## `Aweagent/src/aweagent/workflow.py` : session URLs in `query_paper`

`PaperAgent.query_paper` opens `session = get_database_session(db_path)` and
`session_filter = get_database_session(os.path.dirname(filter_db_full_path)
if db_path else None)`; the string `database_filter_url` is computed from
`filter_db_full_path` but never used afterwards. -/

/-- `filter_db_full_path` as computed in `workflow.py`:
`os.path.join(db_path, "SemanticScholar_papers_filter.db")` when `db_path`
is truthy, else the bare file name. -/
def queryPaperFilterDbFullPath (db_path : Option String) : String :=
  match db_path with
  | some p =>
      if pyStrTruthy p then pyPathJoin p "SemanticScholar_papers_filter.db"
      else "SemanticScholar_papers_filter.db"
  | none => "SemanticScholar_papers_filter.db"

/-- The (dead) `database_filter_url` string computed in `workflow.py`. -/
def queryPaperDatabaseFilterUrl (db_path : Option String) : String :=
  "sqlite:///" ++ queryPaperFilterDbFullPath db_path

/-- The argument actually passed to `get_database_session` for
`session_filter` in `workflow.py`: `os.path.dirname(filter_db_full_path)`
when `db_path` is truthy, else `None`. -/
def queryPaperFilterSessionArg (db_path : Option String) : Option String :=
  match db_path with
  | some p =>
      if pyStrTruthy p then some (pyDirname (queryPaperFilterDbFullPath (some p)))
      else none
  | none => none

/-- URL of the file behind `session` (the full-results store) in
`query_paper`. -/
def queryPaperMainUrl (db_path : Option String) (env : Option String) : String :=
  get_database_session_url db_path env

/-- URL of the file behind `session_filter` (the filtered-results store) in
`query_paper`. -/
def queryPaperFilterUrl (db_path : Option String) (env : Option String) : String :=
  get_database_session_url (queryPaperFilterSessionArg db_path) env

/-! ## `workflow.py` / `agent.py` : the annotate retry loop

`PaperAgent.run` does
`annotator_res = self.annotator.run(rep.content)` followed by
`while isinstance(annotator_res.content, str):
   annotator_res = self.annotator.run(annotator_res.content)`.
The annotator is modelled as a function from the string it is re-fed to the
content of its next response. -/

/-- Content of an annotator response: either a plain string or the
structured `PaperListModel` object. -/
inductive AnnContent where
  | str : String → AnnContent
  | structured : List (String × String × String) → AnnContent
deriving DecidableEq

/-- Whether a response content is a plain string (`isinstance(content, str)`). -/
def AnnContent.isStr : AnnContent → Bool
  | .str _ => true
  | .structured _ => false

/-- The sequence of annotator response contents produced by the `while`
loop: step `k+1` re-invokes the annotator on the string content of step `k`
and leaves structured content fixed. -/
def annIter (ann : String → AnnContent) (c : AnnContent) : Nat → AnnContent
  | 0 => c
  | k + 1 =>
      match annIter ann c k with
      | .str s => ann s
      | .structured pl => .structured pl

/-- Fuel-bounded unfolding of the `while isinstance(..., str)` loop in
`PaperAgent.run`: returns the first structured content reached within the
given number of re-invocations, and `none` if the loop is still running. -/
def annotateLoop (ann : String → AnnContent) : Nat → AnnContent → Option AnnContent
  | 0, c => match c with
      | .structured pl => some (.structured pl)
      | .str _ => none
  | n + 1, c => match c with
      | .structured pl => some (.structured pl)
      | .str s => annotateLoop ann n (ann s)

/-! ## `db.py` : the `Paper` ORM row

One flat record type with loosely typed columns; every column the two
insertion sites (`tool.py:search_papers` and `workflow.py:query_paper`)
assign is present, all others default to SQL NULL (`none`). -/

/-- A row of the `papers` table from `db.py` (columns set by the code;
unset columns are `none`). -/
structure PaperRow where
  paper_id : Option String := none
  title : Option String := none
  authors : Option String := none
  year : Option Int := none
  url : Option String := none
  publication_types : Option String := none
  venue : Option String := none
  journal : Option String := none
  doi : Option String := none
  abstract : Option String := none
  citationCount : Option Int := none
  citationStyles : Option String := none
  citations : Option String := none
  corpusId : Option String := none
  fieldsOfStudy : Option String := none
  influentialCitationCount : Option Int := none
  isOpenAccess : Option Bool := none
  openAccessPdf : Option String := none
  publicationDate : Option String := none
  referenceCount : Option Int := none
  domain : Option String := none
  category : Option String := none
deriving DecidableEq

/-- Python exceptions that the modelled code can raise. -/
inductive PyErr where
  | indexError
  | attributeError
deriving DecidableEq

/-- `l[-1]` on a Python list: last element, `IndexError` on an empty list. -/
def pyLast {α : Type} : List α → Except PyErr α
  | [] => .error .indexError
  | a :: l => .ok ((a :: l).getLast (List.cons_ne_nil a l))

/-- `str(x)` for an optional string: `None` prints as `"None"`. -/
def strOfOpt : Option String → String
  | some s => s
  | none => "None"

/-- Lookup in a Python dict modelled as an association list
(`d.get(k, None)`). -/
def dictGet (d : List (String × String)) (k : String) : Option String :=
  (d.find? (fun kv => kv.1 = k)).map (fun kv => kv.2)

/-! ## `src/aweagent/tool.py` : `search_papers`

We model everything after the Semantic Scholar API calls: `items` is the
candidate list the API returned and `authorInfo` maps an author id to the
`str()` of the author record `get_authors` returned for it.  The session is
the list of rows of the default database (`get_database_session()`), with
pending `session.add` rows visible to later `session.query` calls
(SQLAlchemy autoflush). -/

/-- An author entry of a Semantic Scholar candidate paper. -/
structure SchAuthor where
  authorId : Option String
  name : String
deriving DecidableEq

/-- The `journal` sub-object of a candidate (its `name` may be null). -/
structure SchJournal where
  name : Option String
deriving DecidableEq

/-- A candidate paper returned by `sch.search_paper(...).items`, with the
attributes that `search_papers` reads. -/
structure Candidate where
  paperId : Option String := none
  title : Option String := none
  authors : Option (List SchAuthor) := none
  year : Option Int := none
  venue : Option String := none
  url : Option String := none
  publicationTypes : Option (List String) := none
  journal : Option SchJournal := none
  externalIds : Option (List (String × String)) := none
  abstract : Option String := none
  citationCount : Option Int := none
  citationStyles : Option String := none
  citations : Option String := none
  corpusId : Option String := none
  fieldsOfStudy : Option (List String) := none
  influentialCitationCount : Option Int := none
  isOpenAccess : Option Bool := none
  openAccessPdf : Option String := none
  publicationDate : Option String := none
  referenceCount : Option Int := none
deriving DecidableEq

/-- The pre-filter comprehension
`[paper for paper in papers.items if paper.authors is not None and
paper.authors[-1].authorId is not None]` applied to one candidate;
`paper.authors[-1]` raises `IndexError` on an empty author list. -/
def prefilterTest (c : Candidate) : Except PyErr Bool :=
  match c.authors with
  | none => .ok false
  | some l =>
      match pyLast l with
      | .error e => .error e
      | .ok last => .ok last.authorId.isSome

/-- The pre-filter comprehension over the whole candidate list (left to
right, first exception wins). -/
def prefilterList : List Candidate → Except PyErr (List Candidate)
  | [] => .ok []
  | c :: cs =>
      match prefilterTest c with
      | .error e => .error e
      | .ok keep =>
          match prefilterList cs with
          | .error e => .error e
          | .ok rest => .ok (if keep then c :: rest else rest)

/-- The `Paper(...)` row built for a candidate in the body of
`search_papers` (`db_paper = Paper(...)`); `authorsStr` is the
`str(authors)` value; the `doi` column recomputes the lookup just as the
source does. -/
def rowOfCandidate (c : Candidate) (authorsStr : String) : PaperRow :=
  { paper_id := c.paperId
    title := c.title
    authors := some authorsStr
    year := c.year
    venue := c.venue
    url := c.url
    publication_types :=
      match c.publicationTypes with
      | some (t :: ts) => some (String.intercalate "," (t :: ts))
      | _ => none
    journal := match c.journal with | some j => j.name | none => none
    doi := match c.externalIds with | some e => dictGet e "DOI" | none => none
    abstract := c.abstract
    citationCount := c.citationCount
    citationStyles := some (strOfOpt c.citationStyles)
    citations := some (strOfOpt c.citations)
    corpusId := c.corpusId
    fieldsOfStudy :=
      match c.fieldsOfStudy with
      | some (t :: ts) => some (String.intercalate "," (t :: ts))
      | _ => none
    influentialCitationCount := c.influentialCitationCount
    isOpenAccess := c.isOpenAccess
    openAccessPdf := some (strOfOpt c.openAccessPdf)
    publicationDate := c.publicationDate
    referenceCount := c.referenceCount }

/-- The `<paper>` XML snippet appended to `paper_ls` for a candidate. -/
def candidateSnippet (c : Candidate) (d : String) : String :=
  "\n                <paper>\n                    <doi>" ++ d ++
  "</doi>\n                    <title> " ++ strOfOpt c.title ++
  "</title>\n                    <journal> " ++
  strOfOpt (match c.journal with | some j => j.name | none => none) ++
  "</journal>\n                </paper>\n            "

/-- One iteration of the `for idx, paper in enumerate(papers)` loop in
`search_papers`: skip candidates without `externalIds`, without a DOI or
without authors, compute the `authors` value, insert a row when no row with
this DOI exists yet, and append the XML snippet. -/
def processCandidate (authorInfo : String → String)
    (st : List PaperRow × List String) (c : Candidate) :
    Except PyErr (List PaperRow × List String) :=
  match c.externalIds with
  | none => .ok st
  | some ext =>
    match dictGet ext "DOI" with
    | none => .ok st
    | some d =>
      match c.authors with
      | none => .ok st
      | some l =>
          match pyLast l with
          | .error e => .error e
          | .ok last =>
              let authorsStr :=
                match last.authorId with
                | none => last.name
                | some aid => authorInfo aid
              let table := st.1
              let table' :=
                if (table.find? (fun r => r.doi = some d)).isSome then table
                else table ++ [rowOfCandidate c authorsStr]
              .ok (table', st.2 ++ [candidateSnippet c d])

/-- The `for idx, paper in enumerate(papers)` loop of `search_papers`,
threading the session table and the accumulated `paper_ls`. -/
def searchLoop (authorInfo : String → String) :
    List Candidate → List PaperRow × List String →
      Except PyErr (List PaperRow × List String)
  | [], st => .ok st
  | c :: cs, st =>
      match processCandidate authorInfo st c with
      | .error e => .error e
      | .ok st' => searchLoop authorInfo cs st'

/-- `search_papers` after the API call: prefilter the candidates, return
the string `"No papers found"` when the prefilter leaves nothing, and
otherwise run the insertion loop and return the updated table together with
`"\n".join(paper_ls)` (always a string). -/
def searchPapers (authorInfo : String → String) (table : List PaperRow)
    (items : List Candidate) : Except PyErr (List PaperRow × String) :=
  match prefilterList items with
  | .error e => .error e
  | .ok kept =>
      if kept.isEmpty then
        .ok (table, "No papers found")
      else
        match searchLoop authorInfo kept (table, []) with
        | .error e => .error e
        | .ok (t, outs) => .ok (t, String.intercalate "\n" outs)

/-! ## `Aweagent/src/aweagent/workflow.py` : `PaperAgent.query_paper`

The annotated paper list is a list of dicts with keys `doi`, `domain` and
`category`; the main session is read, the filter session is written.
`result` is a Python dict from category to a list of entry dicts, built with
`setdefault`. -/

/-- An element of `paper_list` handed to `query_paper` (one entry of the
annotator's `PaperListModel.paper_list`). -/
structure AnnotatedPaper where
  doi : String
  domain : String
  category : String
deriving DecidableEq

/-- One entry dict appended to `result[category]` in `query_paper`. -/
structure ResultEntry where
  doi : Option String
  title : Option String
  authors : Option String
  publicationDate : Option String
  url : Option String
  domain : String
  category : String
  venue : Option String
  journal : Option String
deriving DecidableEq

/-- The `result` dict of `query_paper`: category → entries, in insertion
order. -/
abbrev QueryResult := List (String × List ResultEntry)

/-- `result.setdefault(cat, []).append(e)`: append to the existing list
for `cat`, creating the key at the end when missing. -/
def setdefaultAppend (res : QueryResult) (cat : String) (e : ResultEntry) : QueryResult :=
  if res.any (fun kv => kv.1 = cat) then
    res.map (fun kv => if kv.1 = cat then (kv.1, kv.2 ++ [e]) else kv)
  else res ++ [(cat, [e])]

/-- The `Paper(...)` row added to the filter session for a missing DOI in
`query_paper`. -/
def filterRowOf (p : PaperRow) (item : AnnotatedPaper) : PaperRow :=
  { doi := some item.doi
    title := p.title
    authors := p.authors
    publicationDate := p.publicationDate
    url := p.url
    domain := some item.domain
    category := some item.category
    venue := p.venue
    journal := p.journal }

/-- One iteration of the `for idx, doi in enumerate(doi_list)` loop:
`doi_to_paper.get(doi)` yielding `None` makes the subsequent `paper.doi`
attribute access raise `AttributeError`; otherwise the result entry is
appended and a filter row is inserted unless one with this DOI exists. -/
def processQueryEntry (doiMap : String → Option PaperRow)
    (st : QueryResult × List PaperRow) (item : AnnotatedPaper) :
    Except PyErr (QueryResult × List PaperRow) :=
  match doiMap item.doi with
  | none => .error .attributeError
  | some p =>
      let e : ResultEntry :=
        { doi := p.doi
          title := p.title
          authors := p.authors
          publicationDate := p.publicationDate
          url := p.url
          domain := item.domain
          category := item.category
          venue := p.venue
          journal := p.journal }
      let res' := setdefaultAppend st.1 item.category e
      let dbf := st.2
      let dbf' :=
        if (dbf.find? (fun r => r.doi = some item.doi)).isSome then dbf
        else dbf ++ [filterRowOf p item]
      .ok (res', dbf')

/-- `doi_to_paper = {paper.doi: paper for paper in papers}` followed by
`.get(d)`: the last row of `papers` with this DOI wins. -/
def doiMapOf (papers : List PaperRow) (d : String) : Option PaperRow :=
  papers.reverse.find? (fun r => r.doi = some d)

/-- The SQL `Paper.doi.in_(doi_list)` filter (NULL DOIs never match). -/
def queryPaperPred (doiList : List String) (r : PaperRow) : Bool :=
  match r.doi with
  | some d => decide (d ∈ doiList)
  | none => false

/-- The `for idx, doi in enumerate(doi_list)` loop of `query_paper`,
threading the `result` dict and the filter session's table. -/
def queryLoop (doiMap : String → Option PaperRow) :
    List AnnotatedPaper → QueryResult × List PaperRow →
      Except PyErr (QueryResult × List PaperRow)
  | [], st => .ok st
  | item :: rest, st =>
      match processQueryEntry doiMap st item with
      | .error e => .error e
      | .ok st' => queryLoop doiMap rest st'

/-- `PaperAgent.query_paper` from `workflow.py` (database state passed
explicitly): `dbMain` is the full-results session's table, `dbFilter` the
filter session's table.  Returns the `result` dict and the filter table
with the pending `session_filter.add` rows. -/
def queryPaper (dbMain dbFilter : List PaperRow) (paperList : List AnnotatedPaper) :
    Except PyErr (QueryResult × List PaperRow) :=
  let doiList := paperList.map (fun i => i.doi)
  let papers := dbMain.filter (queryPaperPred doiList)
  queryLoop (doiMapOf papers) paperList ([], dbFilter)

/-! ## `others/Update_from_json/Script/utils.py` : `load_project_data`

The JSON value has already been parsed; we model the validation performed
after `json.load`, which raises `ValueError` (modelled as `Except.error`)
on the first offending entry and otherwise returns the data unchanged. -/

/-- A parsed JSON value. -/
inductive JValue where
  | null
  | bool (b : Bool)
  | num (n : Int)
  | str (s : String)
  | arr (l : List JValue)
  | obj (l : List (String × JValue))

/-- Python truthiness of a JSON value (`if not project['year']`). -/
def jTruthy : JValue → Bool
  | .null => false
  | .bool b => b
  | .num n => n ≠ 0
  | .str s => !s.isEmpty
  | .arr l => !l.isEmpty
  | .obj l => !l.isEmpty

/-- Key lookup in a JSON object (`'year' in project` / `project['year']`). -/
def jLookup (l : List (String × JValue)) (k : String) : Option JValue :=
  (l.find? (fun kv => kv.1 = k)).map (fun kv => kv.2)

/-- Validation of one project entry in `load_project_data`: it must be a
dict containing the keys `year` and `title` with truthy values. -/
def checkProject (category : String) (i : Nat) (p : JValue) : Except String Unit :=
  match p with
  | .obj fields =>
      if (jLookup fields "year").isNone || (jLookup fields "title").isNone then
        .error ("Project " ++ toString i ++ " in category " ++ category ++
          " missing required fields: year, title")
      else if !(jTruthy ((jLookup fields "year").getD .null)) ||
          !(jTruthy ((jLookup fields "title").getD .null)) then
        .error ("Project " ++ toString i ++ " in category " ++ category ++
          " has empty year or title")
      else .ok ()
  | _ => .error ("Project " ++ toString i ++ " in category " ++ category ++
      " must be a dictionary")

/-- Validation of the project list of one category, indexing as
`enumerate(projects)` does. -/
def checkProjects (category : String) : Nat → List JValue → Except String Unit
  | _, [] => .ok ()
  | i, p :: ps =>
      match checkProject category i p with
      | .error e => .error e
      | .ok _ => checkProjects category (i + 1) ps

/-- Validation of one `(category, projects)` item: the value must be a
list, whose entries are then checked in order. -/
def checkCategory (category : String) (pj : JValue) : Except String Unit :=
  match pj with
  | .arr l => checkProjects category 0 l
  | _ => .error ("Category " ++ category ++ " must contain a list of projects")

/-- Validation of all categories, in dict order. -/
def checkCats : List (String × JValue) → Except String Unit
  | [] => .ok ()
  | (c, pj) :: rest =>
      match checkCategory c pj with
      | .error e => .error e
      | .ok _ => checkCats rest

/-- `load_project_data` after `json.load`: reject non-dict data, validate
every category, and return the data unchanged on success. -/
def load_project_data : JValue → Except String JValue
  | .obj cats => (checkCats cats).map (fun _ => JValue.obj cats)
  | _ => .error "JSON data must be a dictionary"

/-- Spec-side well-formedness of one project entry, following the claim
text: a dict with `year` and `title` keys whose values are non-empty
(truthy). -/
def wfProject : JValue → Bool
  | .obj fields =>
      (jLookup fields "year").isSome && (jLookup fields "title").isSome &&
      jTruthy ((jLookup fields "year").getD .null) &&
      jTruthy ((jLookup fields "title").getD .null)
  | _ => false

/-- Spec-side well-formedness of one category value: a list of well-formed
project entries. -/
def wfCategoryVal : JValue → Bool
  | .arr l => l.all wfProject
  | _ => false

/-- Spec-side well-formedness, following the claim text: a dict of
category to list of dicts, each with non-empty `year` and `title`. -/
def wfProjectData : JValue → Bool
  | .obj cats => cats.all (fun kv => wfCategoryVal kv.2)
  | _ => false

/-! ## `others/Update_from_json/Script/update_readme.py` : `main`

The claim about `main` is about the order of its effects, so the flow is
modelled as the list of actions it performs, parameterised by the outcomes
of the checks it makes on the way. -/

/-- The externally visible steps of `update_readme.py main`. -/
inductive MainEvent where
  | loadData
  | parseTables
  | compareData
  | backup
  | generateTables
  | updateFile
deriving DecidableEq

/-- Inputs determining the control flow of `main`. -/
structure MainArgs where
  jsonExists : Bool
  readmeExists : Bool
  writable : Bool
  loadOk : Bool
  changesCount : Nat
  force : Bool
  noBackup : Bool

/-- The sequence of steps `main` performs: validations first (early return
on failure), then load/parse/compare, early return when nothing changed and
`--force` is absent, then backup (unless `--no-backup`), table generation
and the README rewrite. -/
def mainTrace (a : MainArgs) : List MainEvent :=
  if !a.jsonExists then []
  else if !a.readmeExists then []
  else if !a.writable then []
  else if !a.loadOk then [.loadData]
  else if a.changesCount = 0 && !a.force then [.loadData, .parseTables, .compareData]
  else
    [.loadData, .parseTables, .compareData] ++
    (if !a.noBackup then [.backup] else []) ++
    [.generateTables, .updateFile]

/-! ## `others/Update_from_json/Script/add_record_interactive.py`

`prompt_record_fields` splits the entered line on `;`, pads missing fields,
replaces `""` placeholders, enforces `year`/`title`, and auto-generates the
`githubStars` badge from a GitHub `codeUrl`.  A `none` result models the
re-prompt (`continue`) branches. -/

/-- Python whitespace for `str.strip` / `str.split` / `\s`. -/
def pyIsSpace (c : Char) : Bool :=
  c = ' ' || c = '\t' || c = '\n' || c = '\r' || c = Char.ofNat 11 || c = Char.ofNat 12

/-- `str.strip()`: drop leading and trailing whitespace. -/
def pyStrip (s : String) : String :=
  String.mk (((s.toList.dropWhile pyIsSpace).reverse.dropWhile pyIsSpace).reverse)

/-- `str.strip("/")`: drop leading and trailing slashes. -/
def pyStripSlash (s : String) : String :=
  String.mk (((s.toList.dropWhile (fun c => c = '/')).reverse.dropWhile
    (fun c => c = '/')).reverse)

/-- The field names of an interactive record. -/
def recordFields : List String :=
  ["year", "title", "team", "team website", "affiliation", "domain", "venue",
   "paperUrl", "codeUrl", "githubStars"]

/-- `str.split(c)` for a single-character separator. -/
def pySplitChar (sep : Char) : List Char → List (List Char)
  | [] => [[]]
  | c :: cs =>
      if c = sep then [] :: pySplitChar sep cs
      else
        match pySplitChar sep cs with
        | l :: ls => (c :: l) :: ls
        | [] => [[c]]

/-- Python substring test `pat in s` on character lists: some suffix of
`s` starts with `pat`. -/
def containsSub (pat : List Char) : List Char → Bool
  | [] => pat.isEmpty
  | c :: cs => pat.isPrefixOf (c :: cs) || containsSub pat cs

/-- `str.split(pat)` on character lists (non-overlapping, left to right),
with fuel (one unit per consumed character). -/
def pySplitSubFuel (pat : List Char) : Nat → List Char → List (List Char)
  | _, [] => [[]]
  | 0, s => [s]
  | n + 1, c :: cs =>
      if pat.isPrefixOf (c :: cs) then
        [] :: pySplitSubFuel pat n ((c :: cs).drop pat.length)
      else
        match pySplitSubFuel pat n cs with
        | l :: ls => (c :: l) :: ls
        | [] => [[c]]

/-- `str.split(pat)` for a non-empty separator. -/
def pySplitSub (pat s : List Char) : List (List Char) :=
  pySplitSubFuel pat s.length s

/-- The `githubStars` auto-generation in `prompt_record_fields`: when
`codeUrl` contains `github.com`, the owner/repo segment after
`github.com/` becomes a shields.io badge; the `IndexError` raised by
`split("github.com/")[1]` when no `github.com/` occurs is swallowed by the
bare `except`, keeping the typed value. -/
def autoStars (code_url gs : String) : String :=
  if containsSub "github.com".toList code_url.toList then
    match (pySplitSub "github.com/".toList code_url.toList).drop 1 with
    | [] => gs
    | p0 :: _ =>
        let path := pyStripSlash (String.mk p0)
        let ownerRepo :=
          String.intercalate "/" (((pySplitChar '/' path.toList).take 2).map String.mk)
        "https://img.shields.io/github/stars/" ++ ownerRepo
  else gs

/-- The parsing stage of `prompt_record_fields` for one entered line:
split on `;`, strip, pad to ten fields (`none` re-prompts when more),
replace `""` entries, and re-prompt on empty year or title. -/
def parsedParts (rawLine : String) : Option (List String) :=
  let line := pyStrip rawLine
  let parts0 := ((pySplitChar ';' line.toList).map String.mk).map pyStrip
  if parts0.length > recordFields.length then none
  else
    let padded := parts0 ++ List.replicate (recordFields.length - parts0.length) ""
    let parts := padded.map (fun p => if p = "\"\"" then "" else p)
    if (parts.getD 0 "").isEmpty then none
    else if (parts.getD 1 "").isEmpty then none
    else some parts

/-- The body of `prompt_record_fields`: parse the line, auto-generate
`githubStars`, and zip with the field names (`dict(zip(FIELDS, parts))`). -/
def promptRecordFields (rawLine : String) : Option (List (String × String)) :=
  (parsedParts rawLine).map (fun parts =>
    recordFields.zip (parts.take 9 ++ [autoStars (parts.getD 8 "") (parts.getD 9 "")]))

/-! ## `utils.py` : `escape_markdown` and
`update_readme.py` : `generate_markdown_table`

Projects are dicts of string fields (`project.get(key, '')`). -/

/-- `str.strip()` on a character list. -/
def stripList (l : List Char) : List Char :=
  ((l.dropWhile pyIsSpace).reverse.dropWhile pyIsSpace).reverse

/-- `str.rstrip()` on a character list. -/
def rstripList (l : List Char) : List Char :=
  (l.reverse.dropWhile pyIsSpace).reverse

/-- `str.split()` (split on whitespace runs, dropping empties); the
accumulator holds the current word reversed. -/
def wordsAux : List Char → List Char → List (List Char)
  | acc, [] => if acc.isEmpty then [] else [acc.reverse]
  | acc, c :: cs =>
      if pyIsSpace c then
        if acc.isEmpty then wordsAux [] cs else acc.reverse :: wordsAux [] cs
      else wordsAux (c :: acc) cs

/-- `escape_markdown` from `utils.py`: escape pipes, turn newlines into
spaces, collapse whitespace runs (`" ".join(text.split())`). -/
def escape_markdown (text : String) : String :=
  if text.isEmpty then ""
  else
    let l1 := (text.toList.map (fun c => if c = '|' then ['\\', '|'] else [c])).flatten
    let l2 := l1.map (fun c => if c = '\n' || c = '\r' then ' ' else c)
    String.mk (List.intercalate [' '] (wordsAux [] l2))

/-- The fixed column list from `get_category_columns`. -/
def tableColumns : List String :=
  ["Year", "Title", "Team", "Team Website", "Affiliation", "Domain", "Venue",
   "Paper/ Source", "Code/Product"]

/-- `project.get(key, '')`. -/
def projGet (p : List (String × String)) (k : String) : String :=
  ((p.find? (fun kv => kv.1 = k)).map (fun kv => kv.2)).getD ""

/-- One cell of a generated table row, following the `if col == ...` chain
in `generate_markdown_table` (URL-typed fields are inserted verbatim). -/
def rowCell (p : List (String × String)) (col : String) : String :=
  if col = "Year" then escape_markdown (projGet p "year")
  else if col = "Title" then
    let t := escape_markdown (projGet p "title")
    if !t.isEmpty then "**" ++ t ++ "**" else ""
  else if col = "Team" then escape_markdown (projGet p "team")
  else if col = "Team Website" then
    let tw := projGet p "team website"
    if !tw.isEmpty then "[Link](" ++ tw ++ ")" else ""
  else if col = "Affiliation" then escape_markdown (projGet p "affiliation")
  else if col = "Domain" then escape_markdown (projGet p "domain")
  else if col = "Venue" then escape_markdown (projGet p "venue")
  else if col = "Paper/ Source" then
    let pu := projGet p "paperUrl"
    if !pu.isEmpty then "[Link](" ++ pu ++ ")" else ""
  else if col = "Code/Product" then
    let cu := projGet p "codeUrl"
    let gs := projGet p "githubStars"
    if !cu.isEmpty then
      "[Link](" ++ cu ++ ")" ++
      (if !gs.isEmpty then
        (if "http".toList.isPrefixOf gs.toList then " ![GitHub Stars](" ++ gs ++ ")"
         else " ![GitHub Stars](https://img.shields.io/github/stars/" ++ gs ++ ")")
       else "")
    else ""
  else ""

/-- A generated data row: `"| " + " | ".join(row_data) + " |"`. -/
def markdownRow (p : List (String × String)) : String :=
  "| " ++ String.intercalate " | " (tableColumns.map (rowCell p)) ++ " |"

/-- The generated header separator line. -/
def tableSeparator : String :=
  "|" ++ String.intercalate "|"
    (tableColumns.map (fun c => " " ++ String.mk (List.replicate (c.length + 1) '-'))) ++ "|"

/-- `generate_markdown_table`: empty for an empty project list, otherwise
header, separator and one row per project joined by newlines. -/
def generate_markdown_table (projects : List (List (String × String))) : String :=
  if projects.isEmpty then ""
  else
    String.intercalate "\n"
      (("| " ++ String.intercalate " | " tableColumns ++ " |") ::
        tableSeparator :: projects.map markdownRow)

/-- `str.title()`: alphabetic characters are upper-cased after a
non-alphabetic character and lower-cased otherwise. -/
def pyTitleAux : Bool → List Char → List Char
  | _, [] => []
  | prev, c :: cs =>
      if c.isAlpha then
        (if prev then c.toLower else c.toUpper) :: pyTitleAux true cs
      else c :: pyTitleAux false cs

/-- `get_category_display_name` from `utils.py`. -/
def get_category_display_name (k : String) : String :=
  if k = "ai-agents" then "AI Agents"
  else if k = "foundation-models" then "Foundation models"
  else if k = "ai-tools" then "AI Tools"
  else if k = "databases" then "Databases/Simulation"
  else if k = "benchmarks" then "Benchmarks"
  else if k = "reviews" then "Reviews"
  else String.mk (pyTitleAux false (k.toList.map (fun c => if c = '-' then ' ' else c)))

/-! ## `update_readme.py` : `update_readme_file`

For each category the file content is rewritten with
`re.sub(r'(## NAME\s*\n)(.*?)(?=\n## |\n# |\Z)', replace_section, content,
flags=re.DOTALL)`.  We implement this specific pattern on character lists:
a literal `## NAME`, then the greedy `\s*\n` (the maximal whitespace run,
cut after its last newline), then the lazy body ended by the first
`\n## ` / `\n# ` occurrence or the end of the string; `re.sub` scans left
to right and resumes after each match. -/

/-- Match a literal prefix, returning the remainder. -/
def dropLit : List Char → List Char → Option (List Char)
  | [], s => some s
  | _ :: _, [] => none
  | p :: ps, c :: cs => if p = c then dropLit ps cs else none

/-- Whether `pat` is a prefix of `s`. -/
def isPre (pat s : List Char) : Bool := pat.isPrefixOf s

/-- `\s*\n` (greedy, with backtracking): consume the maximal whitespace
run up to and including its last newline; fail when the run has none. -/
def wsNlSplit (r0 : List Char) : Option (List Char × List Char) :=
  let w := r0.takeWhile pyIsSpace
  if w.contains '\n' then
    let afterLastRev := w.reverse.takeWhile (fun c => c ≠ '\n')
    let consumed := w.take (w.length - afterLastRev.length)
    some (consumed, afterLastRev.reverse ++ r0.drop w.length)
  else none

/-- `(.*?)(?=\n## |\n# |\Z)` with DOTALL: the shortest prefix after which
the remainder starts with `\n## ` or `\n# ` or is empty; returns (body,
remainder). -/
def lazySplit : List Char → List Char × List Char
  | [] => ([], [])
  | c :: cs =>
      if isPre ['\n', '#', '#', ' '] (c :: cs) || isPre ['\n', '#', ' '] (c :: cs) then
        ([], c :: cs)
      else
        let r := lazySplit cs
        (c :: r.1, r.2)

/-- Try the section pattern at the current position; on success return
(group 1, group 2, rest of the input after the match). -/
def matchHere (name : List Char) (s : List Char) :
    Option (List Char × List Char × List Char) :=
  match dropLit ('#' :: '#' :: ' ' :: name) s with
  | none => none
  | some r0 =>
      match wsNlSplit r0 with
      | none => none
      | some (wcons, r1) =>
          let g2rest := lazySplit r1
          some ('#' :: '#' :: ' ' :: name ++ wcons, g2rest.1, g2rest.2)

/-- `existing_content.split('\n')`. -/
def splitLines : List Char → List (List Char)
  | [] => [[]]
  | c :: cs =>
      if c = '\n' then [] :: splitLines cs
      else
        match splitLines cs with
        | l :: ls => (c :: l) :: ls
        | [] => [[c]]

/-- `replace_section` from `update_readme_file`: keep the header, keep the
(right-stripped) text before the first line whose stripped form starts with
`|`, then the new table and a newline. -/
def replaceSection (g1 g2 table : List Char) : List Char :=
  let lines := splitLines g2
  let tableStart := (lines.findIdx? (fun l => isPre ['|'] (stripList l))).getD 0
  let beforeT := rstripList (List.intercalate ['\n'] (lines.take tableStart))
  let beforeT' := if beforeT.isEmpty then [] else beforeT ++ ['\n', '\n']
  g1 ++ beforeT' ++ table ++ ['\n']

/-- The left-to-right scan of `re.sub`, with fuel (one unit per consumed
character; a match always consumes at least one). -/
def resubFuel (name table : List Char) : Nat → List Char → List Char
  | 0, s => s
  | _ + 1, [] => []
  | n + 1, c :: cs =>
      match matchHere name (c :: cs) with
      | some (g1, g2, rest) => replaceSection g1 g2 table ++ resubFuel name table n rest
      | none => c :: resubFuel name table n cs

/-- `re.sub(section_pattern, replace_section, content, flags=re.DOTALL)`
for one section name. -/
def reSubSection (name table content : List Char) : List Char :=
  resubFuel name table content.length content

/-- The content transformation of `update_readme_file`: apply the section
substitution for every category in order, skipping empty tables. -/
def update_readme_content (content : String) (tables : List (String × String)) : String :=
  String.mk (tables.foldl
    (fun c nt =>
      if nt.2.isEmpty then c
      else reSubSection (get_category_display_name nt.1).toList nt.2.toList c)
    content.toList)

/-- The JSON → README sync named by the claim: generate a table per
category of the project data, then substitute each section of the README
content (`generate_markdown_table` followed by `update_readme_file`). -/
def syncReadme (data : List (String × List (List (String × String))))
    (content : String) : String :=
  update_readme_content content
    (data.map (fun cp => (cp.1, generate_markdown_table cp.2)))

/-! ## Theorems for the claims -/

/-- C1: the claim says `PaperAgent.query_paper` writes the filtered
records to a second SQLite file distinct from the full-results file.  In
`workflow.py` the filter session is opened on
`os.path.dirname(filter_db_full_path)`, which `get_database_session` turns
back into `SemanticScholar_papers.db`: at `db_path = "/data"` (and with
`db_path = None`) both sessions are bound to the same file, while the
separate filter-file URL the function computes (`database_filter_url`) is
never used. -/
theorem claim_C1 :
    queryPaperFilterUrl (some "/data") none = queryPaperMainUrl (some "/data") none ∧
    queryPaperMainUrl (some "/data") none = "sqlite:////data/SemanticScholar_papers.db" ∧
    queryPaperDatabaseFilterUrl (some "/data") ≠ queryPaperFilterUrl (some "/data") none ∧
    queryPaperFilterUrl none none = queryPaperMainUrl none none := by
  refine ⟨by decide, by decide, by decide, by decide⟩

/-- Auxiliary for C3: stepping the iterated annotator sequence once from a
string content. -/
theorem annIter_shift (ann : String → AnnContent) (s : String) (k : Nat) :
    annIter ann (.str s) (k + 1) = annIter ann (ann s) k := by
  induction k with
  | zero => simp [annIter]
  | succ k ih =>
      show (match annIter ann (.str s) (k + 1) with
        | .str t => ann t
        | .structured pl => .structured pl) = annIter ann (ann s) (k + 1)
      rw [ih]
      rfl

/-- C3: the annotate retry loop of `PaperAgent.run` re-invokes the
annotator while (and only while) the response content is a plain string:
the loop reaches a result within some bound iff the iterated annotator
sequence eventually yields a non-string content, and for an annotator that
always returns a string (starting from a string) no bound ever suffices. -/
theorem claim_C3 (ann : String → AnnContent) (c : AnnContent) :
    ((∃ n r, annotateLoop ann n c = some r) ↔ (∃ k, (annIter ann c k).isStr = false)) ∧
    ((∀ s, (ann s).isStr = true) → c.isStr = true → ∀ n, annotateLoop ann n c = none) := by
  constructor
  · constructor
    · rintro ⟨n, r, hn⟩
      induction n generalizing c with
      | zero =>
          cases c with
          | str s => simp [annotateLoop] at hn
          | structured pl => exact ⟨0, rfl⟩
      | succ n ih =>
          cases c with
          | str s =>
              have h := ih (ann s) hn
              obtain ⟨k, hk⟩ := h
              exact ⟨k + 1, by rw [annIter_shift]; exact hk⟩
          | structured pl => exact ⟨0, rfl⟩
    · rintro ⟨k, hk⟩
      induction k generalizing c with
      | zero =>
          cases c with
          | str s => simp [annIter, AnnContent.isStr] at hk
          | structured pl => exact ⟨0, .structured pl, rfl⟩
      | succ k ih =>
          cases c with
          | str s =>
              rw [annIter_shift] at hk
              obtain ⟨n, r, hn⟩ := ih (ann s) hk
              exact ⟨n + 1, r, hn⟩
          | structured pl => exact ⟨0, .structured pl, rfl⟩
  · intro hall hc n
    induction n generalizing c with
    | zero =>
        cases c with
        | str s => rfl
        | structured pl => simp [AnnContent.isStr] at hc
    | succ n ih =>
        cases c with
        | str s => exact ih (ann s) (hall s)
        | structured pl => simp [AnnContent.isStr] at hc

/-- Witness for C3: for the always-string annotator the loop yields no
result after five re-invocations. -/
theorem claim_C3_witness :
    annotateLoop (fun s => AnnContent.str s) 5 (AnnContent.str "x") = none :=
  (claim_C3 (fun s => AnnContent.str s) (AnnContent.str "x")).2 (fun _ => rfl) rfl 5

/-- C7: in `update_readme.py main`, whenever the README rewrite step runs
and `--no-backup` is absent, `create_backup` runs strictly before
`update_readme_file`: the two-event sequence backup-then-update is a
subsequence of the trace. -/
theorem claim_C7 (a : MainArgs) (h1 : a.noBackup = false)
    (h2 : MainEvent.updateFile ∈ mainTrace a) :
    [MainEvent.backup, MainEvent.updateFile].Sublist (mainTrace a) := by
  rcases a with ⟨je, re, w, lo, cc, fo, nb⟩
  dsimp only at h1
  subst h1
  cases je with
  | false => simp [mainTrace] at h2
  | true =>
  cases re with
  | false => simp [mainTrace] at h2
  | true =>
  cases w with
  | false => simp [mainTrace] at h2
  | true =>
  cases lo with
  | false => simp [mainTrace] at h2
  | true =>
  by_cases hcc : cc = 0
  · subst hcc
    cases fo with
    | false => simp [mainTrace] at h2
    | true =>
        simp only [mainTrace]
        decide
  · simp only [mainTrace, decide_eq_false hcc, Bool.false_and, Bool.not_false,
      Bool.not_true, if_true, if_false, Bool.false_eq_true, Bool.true_eq_false]
    decide

/-- Witness for C7: a run with existing files, a successful load, one
detected change and backups enabled performs the backup before the
update. -/
theorem claim_C7_witness :
    [MainEvent.backup, MainEvent.updateFile].Sublist
      (mainTrace ⟨true, true, true, true, 1, false, false⟩) :=
  claim_C7 ⟨true, true, true, true, 1, false, false⟩ rfl (by decide)

/-- Auxiliary for C6: a project entry passes `checkProject` exactly when it
is spec-well-formed. -/
theorem checkProject_ok_iff (cat : String) (i : Nat) (p : JValue) :
    checkProject cat i p = .ok () ↔ wfProject p = true := by
  cases p with
  | obj fields =>
      cases hY : jLookup fields "year" with
      | none => simp [checkProject, wfProject, hY]
      | some y =>
          cases hT : jLookup fields "title" with
          | none => simp [checkProject, wfProject, hY, hT]
          | some t =>
              by_cases hy : jTruthy y <;> by_cases ht : jTruthy t <;>
                simp [checkProject, wfProject, hY, hT, hy, ht]
  | null => simp [checkProject, wfProject]
  | bool b => simp [checkProject, wfProject]
  | num n => simp [checkProject, wfProject]
  | str s => simp [checkProject, wfProject]
  | arr l => simp [checkProject, wfProject]

/-- Auxiliary for C6: a project list passes `checkProjects` exactly when
all entries are spec-well-formed (the running index is irrelevant). -/
theorem checkProjects_ok_iff (cat : String) (l : List JValue) :
    ∀ i : Nat, checkProjects cat i l = .ok () ↔ l.all wfProject = true := by
  induction l with
  | nil => intro i; simp [checkProjects]
  | cons p ps ih =>
      intro i
      simp only [checkProjects, List.all_cons]
      cases hp : checkProject cat i p with
      | error e =>
          have hw : wfProject p = false := by
            cases hwf : wfProject p with
            | false => rfl
            | true =>
                have h := (checkProject_ok_iff cat i p).mpr hwf
                rw [h] at hp
                cases hp
          simp [hw]
      | ok u =>
          cases u
          have hw : wfProject p = true := (checkProject_ok_iff cat i p).mp hp
          simp [hw, ih (i + 1)]

/-- Auxiliary for C6: a category value passes `checkCategory` exactly when
it is a list of spec-well-formed entries. -/
theorem checkCategory_ok_iff (cat : String) (pj : JValue) :
    checkCategory cat pj = .ok () ↔ wfCategoryVal pj = true := by
  cases pj with
  | arr l => simpa [checkCategory, wfCategoryVal] using checkProjects_ok_iff cat l 0
  | null => simp [checkCategory, wfCategoryVal]
  | bool b => simp [checkCategory, wfCategoryVal]
  | num n => simp [checkCategory, wfCategoryVal]
  | str s => simp [checkCategory, wfCategoryVal]
  | obj f => simp [checkCategory, wfCategoryVal]

/-- Auxiliary for C6: the category loop passes exactly when every category
value is a list of spec-well-formed entries. -/
theorem checkCats_ok_iff (cats : List (String × JValue)) :
    checkCats cats = .ok () ↔ cats.all (fun kv => wfCategoryVal kv.2) = true := by
  induction cats with
  | nil => simp [checkCats]
  | cons kv rest ih =>
      obtain ⟨c, pj⟩ := kv
      simp only [checkCats, List.all_cons]
      cases hp : checkCategory c pj with
      | error e =>
          have hw : wfCategoryVal pj = false := by
            cases hwf : wfCategoryVal pj with
            | false => rfl
            | true =>
                have h := (checkCategory_ok_iff c pj).mpr hwf
                rw [h] at hp
                cases hp
          simp [hw]
      | ok u =>
          cases u
          have hw : wfCategoryVal pj = true := (checkCategory_ok_iff c pj).mp hp
          simp [hw, ih]

/-- C6: `load_project_data` returns the data unchanged exactly when it is
a dict of categories to lists of dicts each having non-empty (truthy)
`year` and `title`; on any other input it raises `ValueError` (an
`Except.error`). -/
theorem claim_C6 (v : JValue) :
    (load_project_data v = .ok v ↔ wfProjectData v = true) ∧
    (wfProjectData v = false → ∃ msg, load_project_data v = .error msg) := by
  constructor
  · cases v with
    | obj cats =>
        simp only [load_project_data, wfProjectData]
        cases hc : checkCats cats with
        | error e =>
            have hw : cats.all (fun kv => wfCategoryVal kv.2) = false := by
              cases hwf : cats.all (fun kv => wfCategoryVal kv.2) with
              | false => rfl
              | true =>
                  have h := (checkCats_ok_iff cats).mpr hwf
                  rw [h] at hc
                  cases hc
            simp [Except.map, hw]
        | ok u =>
            cases u
            have hw := (checkCats_ok_iff cats).mp hc
            simp [Except.map, hw]
    | null => simp [load_project_data, wfProjectData]
    | bool b => simp [load_project_data, wfProjectData]
    | num n => simp [load_project_data, wfProjectData]
    | str s => simp [load_project_data, wfProjectData]
    | arr l => simp [load_project_data, wfProjectData]
  · intro hw
    cases v with
    | obj cats =>
        simp only [wfProjectData] at hw
        cases hc : checkCats cats with
        | error e =>
            exact ⟨e, by simp [load_project_data, hc, Except.map]⟩
        | ok u =>
            have h := (checkCats_ok_iff cats).mp (by cases u; exact hc)
            rw [h] at hw
            cases hw
    | null => exact ⟨_, rfl⟩
    | bool b => exact ⟨_, rfl⟩
    | num n => exact ⟨_, rfl⟩
    | str s => exact ⟨_, rfl⟩
    | arr l => exact ⟨_, rfl⟩

/-- Witness for C6: a well-formed dict round-trips unchanged, and a dict
whose project has an empty `year` is rejected with an error. -/
theorem claim_C6_witness :
    load_project_data
        (.obj [("ai-agents", .arr [.obj [("year", .str "2024"), ("title", .str "T")]])]) =
      .ok (.obj [("ai-agents", .arr [.obj [("year", .str "2024"), ("title", .str "T")]])]) ∧
    (∃ msg, load_project_data
        (.obj [("ai-agents", .arr [.obj [("year", .str ""), ("title", .str "T")]])]) =
      .error msg) :=
  ⟨(claim_C6 _).1.mpr rfl, (claim_C6 _).2 rfl⟩

/-- Auxiliary for C10: when `str.split(pat)` yields at least two parts,
the separator occurs in the string. -/
theorem pySplitSubFuel_two_le_contains (pat : List Char) :
    ∀ (n : Nat) (s : List Char), 2 ≤ (pySplitSubFuel pat n s).length →
      containsSub pat s = true := by
  intro n
  induction n with
  | zero =>
      intro s h
      cases s <;> simp [pySplitSubFuel] at h
  | succ n ih =>
      intro s h
      cases s with
      | nil => simp [pySplitSubFuel] at h
      | cons c cs =>
          by_cases hp : pat.isPrefixOf (c :: cs)
          · simp [containsSub, hp]
          · simp only [pySplitSubFuel, if_neg hp] at h
            cases hrec : pySplitSubFuel pat n cs with
            | nil => simp [hrec] at h
            | cons l ls =>
                rw [hrec] at h
                simp only [List.length_cons] at h
                have : 2 ≤ (pySplitSubFuel pat n cs).length := by
                  rw [hrec]; simpa using h
                simp [containsSub, ih cs this]

/-- Auxiliary for C10: an occurrence of an extended pattern is an
occurrence of the pattern. -/
theorem containsSub_of_append (pat q : List Char) :
    ∀ s : List Char, containsSub (pat ++ q) s = true → containsSub pat s = true := by
  intro s
  induction s with
  | nil =>
      simp only [containsSub, List.isEmpty_iff]
      intro h
      rcases List.append_eq_nil.mp h with ⟨h1, _⟩
      exact h1
  | cons c cs ih =>
      simp only [containsSub, Bool.or_eq_true]
      rintro (h | h)
      · left
        have hpre : pat ++ q <+: c :: cs := List.isPrefixOf_iff_prefix.mp h
        exact List.isPrefixOf_iff_prefix.mpr
          ((List.prefix_append pat q).trans hpre)
      · right
        exact ih h

/-- Auxiliary for C10: whether `codeUrl.split("github.com/")` has a second
element (the case in which the badge is generated). -/
def hasGithubSlash (cu : String) : Bool :=
  decide (2 ≤ (pySplitSub "github.com/".toList cu.toList).length)

/-- Auxiliary for C10: the shields.io badge generated from the owner/repo
segment after `github.com/`. -/
def badgeOf (cu : String) : String :=
  match (pySplitSub "github.com/".toList cu.toList).drop 1 with
  | [] => ""
  | p0 :: _ =>
      "https://img.shields.io/github/stars/" ++
        String.intercalate "/"
          (((pySplitChar '/' (pyStripSlash (String.mk p0)).toList).take 2).map String.mk)

/-- C10 counterexample: for the entered record with
`codeUrl = "see github.com docs"` (which contains `github.com`) and typed
`githubStars = "5"`, the saved record keeps `"5"` — it is not overwritten
with a shields.io badge URL, refuting the claim as stated. -/
theorem claim_C10_counterexample :
    containsSub "github.com".toList "see github.com docs".toList = true ∧
    promptRecordFields "2024;t;;;;;;;see github.com docs;5" =
      some [("year", "2024"), ("title", "t"), ("team", ""), ("team website", ""),
        ("affiliation", ""), ("domain", ""), ("venue", ""), ("paperUrl", ""),
        ("codeUrl", "see github.com docs"), ("githubStars", "5")] ∧
    ¬ ("https://img.shields.io/github/stars/".toList.isPrefixOf "5".toList = true) := by
  refine ⟨by decide, by decide, by decide⟩

/-- C10 (amended): in the interactive record adder, whenever the entered
`codeUrl` contains the substring `github.com/`, the `githubStars` field of
the saved record is overwritten with the shields.io badge URL derived from
the owner/repo segment after `github.com/`; for every other `codeUrl` —
including ones containing `github.com` without a following slash, where the
`IndexError` of `split("github.com/")[1]` is silently swallowed — the
user-entered `githubStars` value is kept as-is. -/
theorem claim_C10_amended (raw : String) (parts : List String)
    (h : parsedParts raw = some parts) :
    promptRecordFields raw =
      some (recordFields.zip
        (parts.take 9 ++ [autoStars (parts.getD 8 "") (parts.getD 9 "")])) ∧
    (∀ cu gs : String, hasGithubSlash cu = true → autoStars cu gs = badgeOf cu) ∧
    (∀ cu gs : String, hasGithubSlash cu = false → autoStars cu gs = gs) := by
  refine ⟨by simp [promptRecordFields, h], ?_, ?_⟩
  · intro cu gs hcu
    have hlen : 2 ≤ (pySplitSub "github.com/".toList cu.toList).length :=
      of_decide_eq_true hcu
    have hcont : containsSub "github.com".toList cu.toList = true := by
      have h1 : containsSub "github.com/".toList cu.toList = true :=
        pySplitSubFuel_two_le_contains _ _ _ hlen
      exact containsSub_of_append "github.com".toList ['/'] cu.toList h1
    cases hd : (pySplitSub "github.com/".toList cu.toList).drop 1 with
    | nil =>
        exfalso
        have hlen0 : (pySplitSub "github.com/".toList cu.toList).length - 1 = 0 := by
          simpa using congrArg List.length hd
        omega
    | cons p0 rest =>
        unfold autoStars badgeOf
        rw [if_pos hcont, hd]
  · intro cu gs hcu
    have hlen : ¬ 2 ≤ (pySplitSub "github.com/".toList cu.toList).length :=
      of_decide_eq_false hcu
    by_cases hcont : containsSub "github.com".toList cu.toList = true
    · have hd : (pySplitSub "github.com/".toList cu.toList).drop 1 = [] :=
        List.drop_eq_nil_of_le (by omega)
      unfold autoStars
      rw [if_pos hcont, hd]
    · unfold autoStars
      rw [if_neg hcont]

/-- Witness for C10: a GitHub `codeUrl` gets the generated badge, through
the amended theorem at a concrete accepted input line. -/
theorem claim_C10_witness :
    promptRecordFields "2024;t;;;;;;;https://github.com/o/r;x" =
      some (recordFields.zip
        ((["2024", "t", "", "", "", "", "", "", "https://github.com/o/r", "x"].take 9) ++
          [autoStars "https://github.com/o/r" "x"])) ∧
    autoStars "https://github.com/o/r" "x" = badgeOf "https://github.com/o/r" := by
  have h : parsedParts "2024;t;;;;;;;https://github.com/o/r;x" =
      some ["2024", "t", "", "", "", "", "", "", "https://github.com/o/r", "x"] := by decide
  exact ⟨(claim_C10_amended _ _ h).1,
    (claim_C10_amended _ _ h).2.1 "https://github.com/o/r" "x" (by decide)⟩

/-- C5 input data: a project whose `paperUrl` contains a newline-injected
section header (URL fields are inserted into the table unescaped). -/
def c5Data : List (String × List (List (String × String))) :=
  [("ai-agents", [[("year", "2024"), ("title", "t"), ("paperUrl", "u)\n## AI Agents\n x")]])]

/-- C5 input README content. -/
def c5Readme : String := "## AI Agents\nold\n"

/-- C5: the README text after one application of the sync. -/
def c5Once : String :=
  "## AI Agents\n| Year | Title | Team | Team Website | Affiliation | Domain | Venue | Paper/ Source | Code/Product |\n| -----| ------| -----| -------------| ------------| -------| ------| --------------| -------------|\n| 2024 | **t** |  |  |  |  |  | [Link](u)\n## AI Agents\n x) |  |\n"

set_option maxRecDepth 40000 in
/-- C5: the JSON → README sync is not idempotent on this input: one
application yields `c5Once`, but a second application with the same JSON
input duplicates the injected section (the unescaped `paperUrl` smuggles a
`## AI Agents` header into the generated table, which the second run
matches as a section of its own), so applying twice differs from applying
once. -/
theorem claim_C5 :
    syncReadme c5Data c5Readme = c5Once ∧
    syncReadme c5Data (syncReadme c5Data c5Readme) = c5Once ++ "\n" ++ c5Once ∧
    syncReadme c5Data (syncReadme c5Data c5Readme) ≠ syncReadme c5Data c5Readme := by
  refine ⟨by decide, by decide, by decide⟩

/-- Each DOI occurs at most once among the rows of a table. -/
def atMostOncePerDoi (table : List PaperRow) : Prop :=
  ∀ d : String, table.countP (fun r => r.doi = some d) ≤ 1

/-- Auxiliary: appending a row whose DOI has no match in the table
preserves at-most-once-per-DOI. -/
theorem atMostOnce_insert (tb : List PaperRow) (row : PaperRow) (d : String)
    (hdoi : row.doi = some d)
    (hnone : tb.find? (fun r => r.doi = some d) = none)
    (h : atMostOncePerDoi tb) : atMostOncePerDoi (tb ++ [row]) := by
  intro d'
  rw [List.countP_append]
  by_cases hd : d' = d
  · subst hd
    have h0 : tb.countP (fun r => decide (r.doi = some d')) = 0 := by
      rw [List.countP_eq_zero]
      intro r hr
      simpa using List.find?_eq_none.mp hnone r hr
    rw [h0]
    simp [List.countP_cons, hdoi]
  · have h1 : List.countP (fun r => decide (r.doi = some d')) [row] = 0 := by
      rw [List.countP_eq_zero]
      intro r hr
      rw [List.mem_singleton] at hr
      subst hr
      simp [hdoi]
      exact fun hh => absurd hh.symm hd
    rw [h1]
    simpa using h d'

/-- Auxiliary: one iteration of the `search_papers` loop either leaves the
table unchanged or appends a single row whose DOI was checked to be absent
immediately before the insert. -/
theorem processCandidate_table (ai : String → String)
    (st st' : List PaperRow × List String) (c : Candidate)
    (h : processCandidate ai st c = .ok st') :
    st'.1 = st.1 ∨
      ∃ d row, row.doi = some d ∧
        st.1.find? (fun r => r.doi = some d) = none ∧ st'.1 = st.1 ++ [row] := by
  cases hext : c.externalIds with
  | none =>
      simp only [processCandidate, hext] at h
      cases h
      exact Or.inl rfl
  | some ext =>
      cases hdoi : dictGet ext "DOI" with
      | none =>
          simp only [processCandidate, hext, hdoi] at h
          cases h
          exact Or.inl rfl
      | some d =>
          cases hau : c.authors with
          | none =>
              simp only [processCandidate, hext, hdoi, hau] at h
              cases h
              exact Or.inl rfl
          | some l =>
              cases hlast : pyLast l with
              | error e =>
                  simp only [processCandidate, hext, hdoi, hau, hlast] at h
                  cases h
              | ok last =>
                  simp only [processCandidate, hext, hdoi, hau, hlast] at h
                  by_cases hfind : (st.1.find? (fun r => r.doi = some d)).isSome
                  · rw [if_pos hfind] at h
                    cases h
                    exact Or.inl rfl
                  · rw [if_neg hfind] at h
                    cases h
                    refine Or.inr ⟨d, _, ?_, Option.not_isSome_iff_eq_none.mp hfind, rfl⟩
                    simp [rowOfCandidate, hext, hdoi]

/-- Auxiliary: one iteration of the `query_paper` loop either leaves the
filter table unchanged or appends a single row whose DOI was checked to be
absent immediately before the insert. -/
theorem processQueryEntry_table (m : String → Option PaperRow)
    (st st' : QueryResult × List PaperRow) (item : AnnotatedPaper)
    (h : processQueryEntry m st item = .ok st') :
    st'.2 = st.2 ∨
      ∃ d row, row.doi = some d ∧
        st.2.find? (fun r => r.doi = some d) = none ∧ st'.2 = st.2 ++ [row] := by
  cases hm : m item.doi with
  | none =>
      simp only [processQueryEntry, hm] at h
      cases h
  | some p =>
      simp only [processQueryEntry, hm] at h
      by_cases hfind : (st.2.find? (fun r => r.doi = some item.doi)).isSome
      · rw [if_pos hfind] at h
        cases h
        exact Or.inl rfl
      · rw [if_neg hfind] at h
        cases h
        exact Or.inr ⟨item.doi, filterRowOf p item, rfl,
          Option.not_isSome_iff_eq_none.mp hfind, rfl⟩

/-- Auxiliary: the `search_papers` loop preserves at-most-once-per-DOI and
only appends rows. -/
theorem searchLoop_table (ai : String → String) :
    ∀ (l : List Candidate) (st st' : List PaperRow × List String),
      searchLoop ai l st = .ok st' →
      (st.1 <+: st'.1) ∧ (atMostOncePerDoi st.1 → atMostOncePerDoi st'.1) := by
  intro l
  induction l with
  | nil =>
      intro st st' h
      cases h
      exact ⟨List.prefix_rfl, id⟩
  | cons c cs ih =>
      intro st st' h
      simp only [searchLoop] at h
      cases hp : processCandidate ai st c with
      | error e => rw [hp] at h; cases h
      | ok st1 =>
          rw [hp] at h
          have hrest := ih st1 st' h
          rcases processCandidate_table ai st st1 c hp with heq | ⟨d, row, hdoi, hnone, happ⟩
          · exact ⟨heq ▸ hrest.1, fun hm => hrest.2 (heq ▸ hm)⟩
          · constructor
            · exact ((happ ▸ List.prefix_append st.1 [row]) : st.1 <+: st1.1).trans hrest.1
            · intro hm
              exact hrest.2 (happ ▸ atMostOnce_insert st.1 row d hdoi hnone hm)

/-- Auxiliary: the `query_paper` loop preserves at-most-once-per-DOI and
only appends rows to the filter table. -/
theorem queryLoop_table (m : String → Option PaperRow) :
    ∀ (l : List AnnotatedPaper) (st st' : QueryResult × List PaperRow),
      queryLoop m l st = .ok st' →
      (st.2 <+: st'.2) ∧ (atMostOncePerDoi st.2 → atMostOncePerDoi st'.2) := by
  intro l
  induction l with
  | nil =>
      intro st st' h
      cases h
      exact ⟨List.prefix_rfl, id⟩
  | cons item rest ih =>
      intro st st' h
      simp only [queryLoop] at h
      cases hp : processQueryEntry m st item with
      | error e => rw [hp] at h; cases h
      | ok st1 =>
          rw [hp] at h
          have hrest := ih st1 st' h
          rcases processQueryEntry_table m st st1 item hp with heq | ⟨d, row, hdoi, hnone, happ⟩
          · exact ⟨heq ▸ hrest.1, fun hm => hrest.2 (heq ▸ hm)⟩
          · constructor
            · exact ((happ ▸ List.prefix_append st.2 [row]) : st.2 <+: st1.2).trans hrest.1
            · intro hm
              exact hrest.2 (happ ▸ atMostOnce_insert st.2 row d hdoi hnone hm)

/-- Auxiliary: unpacking a successful `search_papers` run into its loop
run (or the `"No papers found"` early return). -/
theorem searchPapers_ok_cases (ai : String → String) (table : List PaperRow)
    (items : List Candidate) (t : List PaperRow) (out : String)
    (h : searchPapers ai table items = .ok (t, out)) :
    t = table ∨ ∃ kept outs, searchLoop ai kept (table, []) = .ok (t, outs) := by
  cases hpre : prefilterList items with
  | error e =>
      simp only [searchPapers, hpre] at h
      cases h
  | ok kept =>
      simp only [searchPapers, hpre] at h
      by_cases hke : kept.isEmpty
      · rw [if_pos hke] at h
        cases h
        exact Or.inl rfl
      · rw [if_neg hke] at h
        cases hloop : searchLoop ai kept (table, []) with
        | error e => rw [hloop] at h; cases h
        | ok st =>
            obtain ⟨t', outs⟩ := st
            rw [hloop] at h
            cases h
            exact Or.inr ⟨kept, outs, hloop⟩

/-- C2: both persistence steps deduplicate by DOI with a lookup
immediately before each insert: a successful `search_papers` run and a
successful `query_paper` run each preserve the invariant that every DOI
occurs at most once in the written table. -/
theorem claim_C2 (authorInfo : String → String) (table : List PaperRow)
    (items : List Candidate) (t : List PaperRow) (out : String)
    (dbMain dbFilter : List PaperRow) (pl : List AnnotatedPaper)
    (res : QueryResult) (dbf : List PaperRow)
    (h1 : atMostOncePerDoi table)
    (h2 : searchPapers authorInfo table items = .ok (t, out))
    (h3 : atMostOncePerDoi dbFilter)
    (h4 : queryPaper dbMain dbFilter pl = .ok (res, dbf)) :
    atMostOncePerDoi t ∧ atMostOncePerDoi dbf := by
  constructor
  · rcases searchPapers_ok_cases authorInfo table items t out h2 with rfl | ⟨kept, outs, hloop⟩
    · exact h1
    · exact (searchLoop_table authorInfo kept (table, []) (t, outs) hloop).2 h1
  · exact (queryLoop_table _ pl ([], dbFilter) (res, dbf) h4).2 h3

/-- Witness input for C2: a candidate carrying a DOI. -/
def c2Cand : Candidate :=
  { authors := some [{ authorId := some "a1", name := "Ann" }],
    externalIds := some [("DOI", "d1")], title := some "T" }

/-- Witness for C2: a run inserting one row from `c2Cand` and an empty
`query_paper` run, both from duplicate-free tables, end duplicate-free. -/
theorem claim_C2_witness :
    atMostOncePerDoi [rowOfCandidate c2Cand "A-rec"] ∧
    atMostOncePerDoi ([] : List PaperRow) :=
  claim_C2 (fun _ => "A-rec") [] [c2Cand] [rowOfCandidate c2Cand "A-rec"]
    (candidateSnippet c2Cand "d1") [] [] [] [] []
    (fun d => by simp) rfl (fun d => by simp) rfl

/-- C4: the persistence steps are insert-only: a successful
`search_papers` run leaves every pre-existing row of the session table
unchanged in place (the old table is a prefix of the new one), and a
successful `query_paper` run does the same for the filter table. -/
theorem claim_C4 (authorInfo : String → String) (table : List PaperRow)
    (items : List Candidate) (t : List PaperRow) (out : String)
    (dbMain dbFilter : List PaperRow) (pl : List AnnotatedPaper)
    (res : QueryResult) (dbf : List PaperRow)
    (h2 : searchPapers authorInfo table items = .ok (t, out))
    (h4 : queryPaper dbMain dbFilter pl = .ok (res, dbf)) :
    table <+: t ∧ dbFilter <+: dbf := by
  constructor
  · rcases searchPapers_ok_cases authorInfo table items t out h2 with rfl | ⟨kept, outs, hloop⟩
    · exact List.prefix_rfl
    · exact (searchLoop_table authorInfo kept (table, []) (t, outs) hloop).1
  · exact (queryLoop_table _ pl ([], dbFilter) (res, dbf) h4).1

/-- Witness input for C4: a candidate carrying a distinct DOI. -/
def c4Cand : Candidate :=
  { authors := some [{ authorId := some "a4", name := "Bea" }],
    externalIds := some [("DOI", "d4")] }

/-- Witness for C4: inserting a new row extends the table, keeping the old
row as a prefix. -/
theorem claim_C4_witness :
    [({ doi := some "z" } : PaperRow)] <+:
        [({ doi := some "z" } : PaperRow), rowOfCandidate c4Cand "B-rec"] ∧
    ([] : List PaperRow) <+: [] :=
  claim_C4 (fun _ => "B-rec") [{ doi := some "z" }] [c4Cand]
    [{ doi := some "z" }, rowOfCandidate c4Cand "B-rec"]
    (candidateSnippet c4Cand "d4") [] [] [] [] []
    rfl rfl

/-- Auxiliary for C8: the `query_paper` loop succeeds exactly when every
listed DOI is found by the lookup map. -/
theorem queryLoop_ok_iff (m : String → Option PaperRow) :
    ∀ (l : List AnnotatedPaper) (st : QueryResult × List PaperRow),
      (∃ st', queryLoop m l st = .ok st') ↔ ∀ item ∈ l, (m item.doi).isSome := by
  intro l
  induction l with
  | nil =>
      intro st
      simp [queryLoop]
  | cons item rest ih =>
      intro st
      constructor
      · rintro ⟨st', h⟩
        simp only [queryLoop] at h
        cases hp : processQueryEntry m st item with
        | error e => rw [hp] at h; cases h
        | ok st1 =>
            rw [hp] at h
            intro x hx
            rcases List.mem_cons.mp hx with rfl | hx'
            · cases hm : m x.doi with
              | none =>
                  rw [processQueryEntry, hm] at hp
                  cases hp
              | some p => simp
            · exact (ih st1).mp ⟨st', h⟩ x hx'
      · intro hall
        have hitem := hall item (List.mem_cons_self item rest)
        cases hm : m item.doi with
        | none => rw [hm] at hitem; simp at hitem
        | some p =>
            have hst1 : processQueryEntry m st item =
                .ok (setdefaultAppend st.1 item.category
                      { doi := p.doi, title := p.title, authors := p.authors,
                        publicationDate := p.publicationDate, url := p.url,
                        domain := item.domain, category := item.category,
                        venue := p.venue, journal := p.journal },
                    if (st.2.find? (fun r => r.doi = some item.doi)).isSome then st.2
                    else st.2 ++ [filterRowOf p item]) := by
              rw [processQueryEntry, hm]
            obtain ⟨st', hst'⟩ :=
              (ih _).mpr (fun x hx => hall x (List.mem_cons_of_mem _ hx))
            exact ⟨st', by simp only [queryLoop, hst1]; exact hst'⟩

/-- Auxiliary for C8: the only exception the `query_paper` loop raises is
the `AttributeError` from dereferencing a missing lookup. -/
theorem queryLoop_error_val (m : String → Option PaperRow) :
    ∀ (l : List AnnotatedPaper) (st : QueryResult × List PaperRow) (e : PyErr),
      queryLoop m l st = .error e → e = .attributeError := by
  intro l
  induction l with
  | nil => intro st e h; cases h
  | cons item rest ih =>
      intro st e h
      simp only [queryLoop] at h
      cases hp : processQueryEntry m st item with
      | error e' =>
          rw [hp] at h
          cases h
          cases hm : m item.doi with
          | none =>
              rw [processQueryEntry, hm] at hp
              cases hp
              rfl
          | some p =>
              rw [processQueryEntry, hm] at hp
              cases hp
      | ok st1 =>
          rw [hp] at h
          exact ih st1 e h

/-- Auxiliary for C8: for a listed entry, the `doi_to_paper` lookup built
from the filtered main-table query finds a row exactly when the main table
has a row with that DOI. -/
theorem doiMap_mem_isSome (dbMain : List PaperRow) (pl : List AnnotatedPaper)
    (item : AnnotatedPaper) (hmem : item ∈ pl) :
    (doiMapOf (dbMain.filter (queryPaperPred (pl.map (fun i => i.doi))))
        item.doi).isSome = true ↔
      ∃ r ∈ dbMain, r.doi = some item.doi := by
  unfold doiMapOf
  rw [List.find?_isSome]
  constructor
  · rintro ⟨r, hr, hp⟩
    rw [List.mem_reverse] at hr
    exact ⟨r, (List.mem_filter.mp hr).1, by simpa using hp⟩
  · rintro ⟨r, hr, hdoi⟩
    refine ⟨r, ?_, by simpa using hdoi⟩
    rw [List.mem_reverse]
    refine List.mem_filter.mpr ⟨hr, ?_⟩
    rw [queryPaperPred, hdoi]
    simpa using List.mem_map.mpr ⟨item, hmem, rfl⟩

/-- C8: `query_paper` completes without error exactly when every DOI of
the annotated list already has a row in the full-results table; a missing
DOI makes the `paper.doi` attribute access on the `None` lookup raise
`AttributeError`. -/
theorem claim_C8 (dbMain dbFilter : List PaperRow) (pl : List AnnotatedPaper) :
    (queryPaper dbMain dbFilter pl = .error .attributeError ↔
      ∃ item ∈ pl, ∀ r ∈ dbMain, r.doi ≠ some item.doi) ∧
    ((∀ item ∈ pl, ∃ r ∈ dbMain, r.doi = some item.doi) ↔
      ∃ res dbf, queryPaper dbMain dbFilter pl = .ok (res, dbf)) := by
  have hkey : (∃ st', queryLoop
        (doiMapOf (dbMain.filter (queryPaperPred (pl.map (fun i => i.doi)))))
        pl ([], dbFilter) = .ok st') ↔
      ∀ item ∈ pl, ∃ r ∈ dbMain, r.doi = some item.doi := by
    rw [queryLoop_ok_iff]
    constructor
    · intro h item hit
      exact (doiMap_mem_isSome dbMain pl item hit).mp (h item hit)
    · intro h item hit
      exact (doiMap_mem_isSome dbMain pl item hit).mpr (h item hit)
  constructor
  · constructor
    · intro herr
      by_contra hno
      push_neg at hno
      obtain ⟨st', hok⟩ := hkey.mpr (by
        intro item hit
        obtain ⟨r, hr, hrd⟩ := hno item hit
        exact ⟨r, hr, hrd⟩)
      have hok' : queryPaper dbMain dbFilter pl = .ok st' := hok
      rw [hok'] at herr
      cases herr
    · rintro ⟨item, hit, hnone⟩
      have hnotok : ¬ ∃ st', queryLoop
          (doiMapOf (dbMain.filter (queryPaperPred (pl.map (fun i => i.doi)))))
          pl ([], dbFilter) = .ok st' := by
        rw [hkey]
        push_neg
        exact ⟨item, hit, fun r hr => hnone r hr⟩
      cases hres : queryLoop
          (doiMapOf (dbMain.filter (queryPaperPred (pl.map (fun i => i.doi)))))
          pl ([], dbFilter) with
      | ok st' => exact absurd ⟨st', hres⟩ hnotok
      | error e =>
          have he := queryLoop_error_val _ pl ([], dbFilter) e hres
          subst he
          exact hres
  · rw [← hkey]
    constructor
    · rintro ⟨st', h⟩
      obtain ⟨res, dbf⟩ := st'
      exact ⟨res, dbf, h⟩
    · rintro ⟨res, dbf, h⟩
      exact ⟨(res, dbf), h⟩

/-- Whether a candidate passes the authors-based pre-filter of
`search_papers` (false also when the test would raise). -/
def prefilterPass (c : Candidate) : Bool :=
  match prefilterTest c with
  | .ok b => b
  | .error _ => false

/-- Whether a candidate has a DOI in its `externalIds` (the loop skips the
others). -/
def hasDoi (c : Candidate) : Bool :=
  match c.externalIds with
  | some e => (dictGet e "DOI").isSome
  | none => false

/-- The DOI of a candidate (defaulting to the empty string). -/
def doiOf (c : Candidate) : String :=
  (match c.externalIds with
    | some e => dictGet e "DOI"
    | none => none).getD ""

/-- A candidate that survives all four drop conditions of
`search_papers`. -/
def survives (c : Candidate) : Bool := hasDoi c && prefilterPass c

/-- Auxiliary for C9: a candidate passing the pre-filter has a non-empty
author list whose last author has an id. -/
theorem prefilterPass_authors (c : Candidate) (h : prefilterPass c = true) :
    ∃ l last aid, c.authors = some l ∧ pyLast l = .ok last ∧
      last.authorId = some aid := by
  cases hau : c.authors with
  | none =>
      simp only [prefilterPass, prefilterTest, hau] at h
      exact Bool.noConfusion h
  | some l =>
      cases hlast : pyLast l with
      | error e =>
          simp only [prefilterPass, prefilterTest, hau, hlast] at h
          exact Bool.noConfusion h
      | ok last =>
          simp only [prefilterPass, prefilterTest, hau, hlast] at h
          cases haid : last.authorId with
          | none => rw [haid] at h; simp at h
          | some aid => exact ⟨l, last, aid, rfl, hlast, haid⟩

/-- Auxiliary for C9: when no author list is empty, the pre-filter
comprehension computes exactly the `prefilterPass` filter. -/
theorem prefilterList_eq : ∀ (items : List Candidate),
    (∀ c ∈ items, c.authors ≠ some []) →
    prefilterList items = .ok (items.filter prefilterPass) := by
  intro items
  induction items with
  | nil => intro h; rfl
  | cons c cs ih =>
      intro h
      have hne := h c (List.mem_cons_self c cs)
      have htest : prefilterTest c = .ok (prefilterPass c) := by
        cases hau : c.authors with
        | none => simp only [prefilterPass, prefilterTest, hau]
        | some l =>
            cases l with
            | nil => exact absurd hau hne
            | cons a as => simp only [prefilterPass, prefilterTest, hau, pyLast]
      rw [prefilterList, htest, ih (fun x hx => h x (List.mem_cons_of_mem _ hx))]
      cases hp : prefilterPass c <;> simp [List.filter_cons, hp]

/-- Auxiliary for C9: over pre-filtered candidates, the loop appends
exactly one XML snippet per candidate that has a DOI, in order. -/
theorem searchLoop_out (ai : String → String) :
    ∀ (l : List Candidate) (tb : List PaperRow) (outs : List String),
      (∀ c ∈ l, prefilterPass c = true) →
      ∃ t', searchLoop ai l (tb, outs) =
        .ok (t', outs ++ (l.filter hasDoi).map (fun c => candidateSnippet c (doiOf c))) := by
  intro l
  induction l with
  | nil =>
      intro tb outs _
      exact ⟨tb, by simp [searchLoop]⟩
  | cons c cs ih =>
      intro tb outs hall
      have hc := hall c (List.mem_cons_self c cs)
      have hrest := fun x hx => hall x (List.mem_cons_of_mem c hx)
      cases hext : c.externalIds with
      | none =>
          have hstep : processCandidate ai (tb, outs) c = .ok (tb, outs) := by
            simp only [processCandidate, hext]
          have hnd : hasDoi c = false := by simp only [hasDoi, hext]
          obtain ⟨t', ht'⟩ := ih tb outs hrest
          refine ⟨t', ?_⟩
          simp only [searchLoop, hstep]
          rw [ht']
          simp [List.filter_cons, hnd]
      | some ext =>
          cases hdoi : dictGet ext "DOI" with
          | none =>
              have hstep : processCandidate ai (tb, outs) c = .ok (tb, outs) := by
                simp only [processCandidate, hext, hdoi]
              have hnd : hasDoi c = false := by
                simp only [hasDoi, hext, hdoi, Option.isSome_none]
              obtain ⟨t', ht'⟩ := ih tb outs hrest
              refine ⟨t', ?_⟩
              simp only [searchLoop, hstep]
              rw [ht']
              simp [List.filter_cons, hnd]
          | some d =>
              obtain ⟨l0, last, aid, hau, hlast, haid⟩ := prefilterPass_authors c hc
              have hstep : ∃ t1, processCandidate ai (tb, outs) c =
                  .ok (t1, outs ++ [candidateSnippet c d]) := by
                simp only [processCandidate, hext, hdoi, hau, hlast]
                exact ⟨_, rfl⟩
              obtain ⟨t1, ht1⟩ := hstep
              obtain ⟨t', ht'⟩ := ih t1 (outs ++ [candidateSnippet c d]) hrest
              refine ⟨t', ?_⟩
              simp only [searchLoop, ht1]
              rw [ht']
              have hd : hasDoi c = true := by
                simp only [hasDoi, hext, hdoi, Option.isSome_some]
              have hdoiOf : doiOf c = d := by
                simp only [doiOf, hext, hdoi, Option.getD_some]
              simp [List.filter_cons, hd, hdoiOf]

/-- C9 counterexample input: a candidate passing the authors pre-filter
but lacking `externalIds`. -/
def c9Bad : Candidate := { authors := some [{ authorId := some "a1", name := "n" }] }

/-- C9 counterexample: with one candidate that survives the authors-based
pre-filter but has no `externalIds`, every candidate is dropped yet
`search_papers` returns the empty string, not `"No papers found"`,
refuting the claim as stated. -/
theorem claim_C9_counterexample :
    searchPapers (fun _ => "x") [] [c9Bad] = .ok ([], "") ∧
    ("" : String) ≠ "No papers found" :=
  ⟨rfl, by decide⟩

/-- C9 (amended): `search_papers` silently drops every candidate whose
authors field is `None` or whose last author has no id (the pre-filter),
and skips every remaining candidate whose `externalIds` is `None` or lacks
a DOI; when the pre-filter leaves nothing it returns the string
`"No papers found"`, and otherwise it returns the joined snippets of
exactly the surviving candidates — in particular the empty string, not
`"No papers found"`, when all pre-filter survivors lack a DOI — always a
string despite the documented `list` return type. -/
theorem claim_C9_amended (authorInfo : String → String) (table : List PaperRow)
    (items : List Candidate) (hne : ∀ c ∈ items, c.authors ≠ some []) :
    (items.filter prefilterPass = [] →
      searchPapers authorInfo table items = .ok (table, "No papers found")) ∧
    (items.filter prefilterPass ≠ [] →
      ∃ t, searchPapers authorInfo table items =
        .ok (t, String.intercalate "\n"
          ((items.filter survives).map (fun c => candidateSnippet c (doiOf c))))) := by
  have hpl := prefilterList_eq items hne
  constructor
  · intro hemp
    rw [searchPapers, hpl, hemp]
    rfl
  · intro hne2
    have hfe : (items.filter prefilterPass).isEmpty = false := by
      cases hh : items.filter prefilterPass with
      | nil => exact absurd hh hne2
      | cons a l => rfl
    obtain ⟨t, ht⟩ := searchLoop_out authorInfo (items.filter prefilterPass) table []
      (fun c hc => (List.mem_filter.mp hc).2)
    refine ⟨t, ?_⟩
    rw [searchPapers, hpl]
    simp only [hfe, Bool.false_eq_true, if_false]
    rw [ht]
    have hff : (items.filter prefilterPass).filter hasDoi = items.filter survives := by
      rw [List.filter_filter]
      rfl
    rw [List.nil_append, hff]

/-- Witness input for C9: a fully surviving candidate. -/
def c9Good : Candidate :=
  { authors := some [{ authorId := some "a9", name := "N" }],
    externalIds := some [("DOI", "d9")] }

/-- Witness for C9: a surviving candidate yields exactly its snippet. -/
theorem claim_C9_witness :
    ∃ t, searchPapers (fun _ => "R") [] [c9Good] =
      .ok (t, String.intercalate "\n"
        (([c9Good].filter survives).map (fun c => candidateSnippet c (doiOf c)))) :=
  (claim_C9_amended (fun _ => "R") [] [c9Good] (by decide)).2 (by decide)

end AweAgent
